import Mathlib

/-!
Verification development for the gorilla/rpc fork in this repository.

The definitions below are a shallow embedding of the Go sources:
  * map.go          — the service registry (dispatch keys, aliases, lookup)
  * server.go       — the v2 dispatch pipeline (ServeHTTP) with hooks
  * writer.go       — the plain-text WriteError helper
  * the JSON-RPC 2.0 codec (ServerRequest/ServerResponse envelopes,
    newCodecRequest, Method, ReadRequest, WriteResponse, WriteError,
    writeServerResponse)
  * compression_selector.go — acceptedEnc / CompressionSelector.Select

Go machine-level details are modelled as follows: Go maps become
association lists with replace-or-append insertion; the http.ResponseWriter
is modelled after the MockResponseWriter in the repository test file
(Write sets the status to 200 when it is still unset, mirroring the
net/http default); encoding/json decoding is modelled by a small JSON
parser plus a field-wise unmarshaller that keeps the first type error and
continues, matching the documented encoding/json behaviour (a syntax
error yields no fields, a type error keeps earlier fields and is
reported).  JSON numbers are modelled as integers, which covers every
wire value considered here.
-/

/-- ASCII fragment of Go strings.ToLower, applied character-wise. -/
def lowerChar (c : Char) : Char :=
  if 'A' ≤ c ∧ c ≤ 'Z' then Char.ofNat (c.toNat + 32) else c

/-- ASCII fragment of Go strings.ToLower. -/
def lowerGo (s : String) : String :=
  String.mk (s.toList.map lowerChar)

/-- Content-Type parameter stripping from ServeHTTP: everything from the
first semicolon on is dropped (server.go lines 155-159). -/
def stripSemi (s : String) : String :=
  String.mk (s.toList.takeWhile (fun c => c ≠ ';'))

/-- Go %q formatting for the plain method-name strings that occur here
(no escaping needed for them). -/
def quoteGo (s : String) : String :=
  "\"" ++ s ++ "\""

/-- isValidRouteName from map.go: accepts exactly the ASCII strings
(the hasUpper computation in the source is dead). -/
def isValidRouteName (s : String) : Bool :=
  s.toList.all (fun c => c.toNat < 128)

/-- toLowerCase from map.go: reject non-ASCII names, keep the empty name,
lower-case a single character, otherwise lower-case only the first
character. -/
def goToLowerCase (s : String) : Except String String :=
  if ¬ isValidRouteName s then .error ("invalid route name " ++ s)
  else
    match s.toList with
    | [] => .ok ""
    | [c] => .ok (String.mk [lowerChar c])
    | c :: rest => .ok (String.mk (lowerChar c :: rest))

/-- Association-list lookup, standing in for a Go map read. -/
def lookupA {α : Type} (k : String) : List (String × α) → Option α
  | [] => none
  | (k', v) :: rest => if k' = k then some v else lookupA k rest

/-- Association-list insertion with replace-or-append semantics,
standing in for a Go map assignment. -/
def insertA {α : Type} (k : String) (v : α) : List (String × α) → List (String × α)
  | [] => [(k, v)]
  | (k', v') :: rest => if k' = k then (k, v) :: rest else (k', v') :: insertA k v rest

/-- Boolean error test for Except values. -/
def exceptIsErr {ε α : Type} : Except ε α → Bool
  | .error _ => true
  | .ok _ => false

-- ---------------------------------------------------------------------------
-- JSON values and a parser modelling json.Decoder.Decode reading one value.
-- ---------------------------------------------------------------------------

/-- JSON values; numbers are modelled as integers (sufficient for every
wire value considered in this development). -/
inductive Json where
  | null : Json
  | jbool : Bool → Json
  | num : Int → Json
  | str : String → Json
  | arr : List Json → Json
  | obj : List (String × Json) → Json

/-- The opening-brace character, kept as a named constant. -/
def lbrace : Char := Char.ofNat 123

/-- The closing-brace character, kept as a named constant. -/
def rbrace : Char := Char.ofNat 125

/-- JSON insignificant whitespace. -/
def isJsonWs (c : Char) : Bool :=
  c = ' ' ∨ c = '\t' ∨ c = '\n' ∨ c = '\r'

/-- Skip insignificant whitespace. -/
def skipWs (cs : List Char) : List Char :=
  cs.dropWhile isJsonWs

/-- Minimal JSON string-escape table (covers the inputs considered). -/
def jsonEscape (c : Char) : Option Char :=
  if c = '"' then some '"'
  else if c = '\\' then some '\\'
  else if c = '/' then some '/'
  else if c = 'n' then some '\n'
  else if c = 't' then some '\t'
  else if c = 'r' then some '\r'
  else none

/-- Parse the remainder of a JSON string after the opening quote. -/
def parseStringRest (acc : List Char) : List Char → Option (String × List Char)
  | [] => none
  | c :: rest =>
    if c = '"' then some (String.mk acc.reverse, rest)
    else if c = '\\' then
      match rest with
      | [] => none
      | e :: rest' =>
        match jsonEscape e with
        | some d => parseStringRest (d :: acc) rest'
        | none => none
    else parseStringRest (c :: acc) rest

/-- Parse a run of decimal digits. -/
def parseDigits (acc : List Char) : List Char → List Char × List Char
  | [] => (acc.reverse, [])
  | c :: rest =>
    if c.isDigit then parseDigits (c :: acc) rest else (acc.reverse, c :: rest)

/-- Digits to a natural number. -/
def digitsToNat (ds : List Char) : Nat :=
  ds.foldl (fun n c => n * 10 + (c.toNat - 48)) 0

/-- Parse a JSON integer (sign and digits; leading zeros and
fraction/exponent continuations are rejected, mirroring JSON number
syntax restricted to integers). -/
def parseIntJ (cs : List Char) : Option (Int × List Char) :=
  let (neg, cs') := match cs with
    | c :: rest => if c = '-' then (true, rest) else (false, cs)
    | [] => (false, cs)
  match parseDigits [] cs' with
  | ([], _) => none
  | (ds, rest) =>
    if ds.length > 1 ∧ ds.headD '0' = '0' then none
    else
      match rest with
      | c :: _ => if c = '.' ∨ c = 'e' ∨ c = 'E' then none
                  else some (if neg then -(digitsToNat ds : Int) else (digitsToNat ds : Int), rest)
      | [] => some (if neg then -(digitsToNat ds : Int) else (digitsToNat ds : Int), rest)

mutual

/-- Fuel-indexed recursive-descent parser for one JSON value. -/
def parseJ : Nat → List Char → Option (Json × List Char)
  | 0, _ => none
  | fuel + 1, cs =>
    match skipWs cs with
    | [] => none
    | c :: rest =>
      if c = 'n' then
        match rest with
        | 'u' :: 'l' :: 'l' :: rest' => some (.null, rest')
        | _ => none
      else if c = 't' then
        match rest with
        | 'r' :: 'u' :: 'e' :: rest' => some (.jbool true, rest')
        | _ => none
      else if c = 'f' then
        match rest with
        | 'a' :: 'l' :: 's' :: 'e' :: rest' => some (.jbool false, rest')
        | _ => none
      else if c = '"' then
        match parseStringRest [] rest with
        | some (s, rest') => some (.str s, rest')
        | none => none
      else if c = lbrace then
        match skipWs rest with
        | d :: rest' =>
          if d = rbrace then some (.obj [], rest')
          else
            match parseFields fuel (d :: rest') with
            | some (fs, rest'') => some (.obj fs, rest'')
            | none => none
        | [] => none
      else if c = '[' then
        match skipWs rest with
        | d :: rest' =>
          if d = ']' then some (.arr [], rest')
          else
            match parseElems fuel (d :: rest') with
            | some (es, rest'') => some (.arr es, rest'')
            | none => none
        | [] => none
      else
        match parseIntJ (c :: rest) with
        | some (n, rest') => some (.num n, rest')
        | none => none

/-- Parse one or more comma-separated object members, up to the closing
brace. -/
def parseFields : Nat → List Char → Option (List (String × Json) × List Char)
  | 0, _ => none
  | fuel + 1, cs =>
    match skipWs cs with
    | '"' :: rest =>
      match parseStringRest [] rest with
      | some (k, rest') =>
        (match skipWs rest' with
         | ':' :: rest'' =>
           match parseJ fuel rest'' with
           | some (v, rest3) =>
             (match skipWs rest3 with
              | c :: rest4 =>
                if c = ',' then
                  match parseFields fuel rest4 with
                  | some (fs, rest5) => some ((k, v) :: fs, rest5)
                  | none => none
                else if c = rbrace then some ([(k, v)], rest4)
                else none
              | [] => none)
           | none => none
         | _ => none)
      | none => none
    | _ => none

/-- Parse one or more comma-separated array elements, up to the closing
bracket. -/
def parseElems : Nat → List Char → Option (List Json × List Char)
  | 0, _ => none
  | fuel + 1, cs =>
    match parseJ fuel cs with
    | some (v, rest) =>
      (match skipWs rest with
       | c :: rest' =>
         if c = ',' then
           match parseElems fuel rest' with
           | some (es, rest'') => some (v :: es, rest'')
           | none => none
         else if c = ']' then some ([v], rest')
         else none
       | [] => none)
    | none => none

end

/-- json.Decoder.Decode reads exactly one JSON value from the body and
leaves trailing input unread; failure to read a value is a syntax
error. -/
def parseJson (s : String) : Option Json :=
  match parseJ (2 * s.length + 8) s.toList with
  | some (v, _) => some v
  | none => none

-- ---------------------------------------------------------------------------
-- JSON-RPC 2.0 error taxonomy and Go-level errors.
-- ---------------------------------------------------------------------------

/-- Modelled from the spec: the fixed JSON-RPC 2.0 error-code taxonomy
(Parse Error, Invalid Request, Method Not Found, Invalid Params,
Internal Error, and the generic Server Error used for user-code
failures).  The numeric constants live in the json2 errors file, which
is not among the provided sources; the claims only distinguish the
codes, so they are modelled as an enumeration. -/
inductive ErrorCode where
  | E_PARSE : ErrorCode
  | E_INVALID_REQ : ErrorCode
  | E_NO_METHOD : ErrorCode
  | E_BAD_PARAMS : ErrorCode
  | E_INTERNAL : ErrorCode
  | E_SERVER : ErrorCode
deriving DecidableEq

/-- The request envelope of the JSON-RPC 2.0 codec (ServerRequest).
The Params and Id members are pointers to raw JSON in Go; a nil pointer
(absent member, or a JSON null, which json.Unmarshal turns into a nil
pointer) is modelled as none. -/
structure ServerRequest where
  version : String
  method : String
  params : Option Json
  id : Option Json

/-- The opaque Data member carried by a structured JSON-RPC error:
either absent, the (partially decoded) request, or the raw params. -/
inductive ErrData where
  | noData : ErrData
  | reqData : ServerRequest → ErrData
  | paramsData : Json → ErrData

/-- A structured JSON-RPC 2.0 error (the json2 Error type). -/
structure JError where
  code : ErrorCode
  message : String
  data : ErrData

/-- A Go error as seen by the pipeline: either already a structured
json2 *Error, or a plain error carrying only a message. -/
inductive GoError where
  | jsonErr : JError → GoError
  | plain : String → GoError

/-- The type assertion in the codec WriteError: a structured *Error is
forwarded verbatim, anything else is wrapped as a generic E_SERVER
error with the message of the original error. -/
def wrapGoErr : GoError → JError
  | .jsonErr e => e
  | .plain m => ⟨.E_SERVER, m, .noData⟩

/-- The error code of an optional structured error. -/
def errCode (e : Option JError) : Option ErrorCode :=
  e.map JError.code

/-- The error code reported by a Method()-style result. -/
def exceptErrCode (e : Except JError String) : Option ErrorCode :=
  match e with
  | .error err => some err.code
  | .ok _ => none

/-- The zero value of ServerRequest, as allocated by new(ServerRequest). -/
def zeroSR : ServerRequest :=
  ⟨"", "", none, none⟩

/-- Field-wise unmarshalling of a JSON object into ServerRequest,
mirroring encoding/json: members are processed in order, unknown keys
are ignored, a JSON null leaves a string field unchanged and sets a
pointer field to nil, a type error is recorded (first one wins) while
decoding continues. -/
def applySRFields (r : ServerRequest) (err : Option String) :
    List (String × Json) → ServerRequest × Option String
  | [] => (r, err)
  | (k, v) :: rest =>
    if k = "jsonrpc" then
      match v with
      | .str s => applySRFields { r with version := s } err rest
      | .null => applySRFields r err rest
      | _ => applySRFields r (err <|> some "cannot unmarshal value into string field jsonrpc") rest
    else if k = "method" then
      match v with
      | .str s => applySRFields { r with method := s } err rest
      | .null => applySRFields r err rest
      | _ => applySRFields r (err <|> some "cannot unmarshal value into string field method") rest
    else if k = "params" then
      match v with
      | .null => applySRFields { r with params := none } err rest
      | _ => applySRFields { r with params := some v } err rest
    else if k = "id" then
      match v with
      | .null => applySRFields { r with id := none } err rest
      | _ => applySRFields { r with id := some v } err rest
    else applySRFields r err rest

/-- json.NewDecoder(r.Body).Decode(req) for req of type *ServerRequest:
a syntax error leaves the zero request; a JSON null is a no-op on a
non-nil pointer target; a non-object value is a type error leaving the
zero request; an object is unmarshalled field-wise. -/
def decodeServerRequest (body : String) : ServerRequest × Option String :=
  match parseJson body with
  | none => (zeroSR, some "invalid character in request body")
  | some v =>
    match v with
    | .null => (zeroSR, none)
    | .obj fields => applySRFields zeroSR none fields
    | _ => (zeroSR, some "cannot unmarshal value into ServerRequest")

-- ---------------------------------------------------------------------------
-- The JSON-RPC 2.0 codec (json2 package).
-- ---------------------------------------------------------------------------

/-- The per-request state of the json2 codec: the decoded request and
the recorded decode error, if any. -/
structure CodecReq where
  req : ServerRequest
  err : Option JError

/-- newCodecRequest: decode the body; a decode failure records a Parse
Error; then the version field is re-checked unconditionally and, when
it is not "2.0", the error is overwritten with an Invalid Request
error. -/
def json2NewRequest (body : String) : CodecReq :=
  let (req, decErr) := decodeServerRequest body
  let err0 : Option JError :=
    match decErr with
    | some m => some ⟨.E_PARSE, m, .reqData req⟩
    | none => none
  let err : Option JError :=
    if req.version ≠ "2.0" then
      some ⟨.E_INVALID_REQ, "jsonrpc must be 2.0", .reqData req⟩
    else err0
  ⟨req, err⟩

/-- Method(): the parsed method name, or the recorded decode error. -/
def json2Method (c : CodecReq) : Except JError String :=
  match c.err with
  | none => .ok c.req.method
  | some e => .error e

-- ---------------------------------------------------------------------------
-- The value universe for method arguments and replies.
-- ---------------------------------------------------------------------------

/-- Runtime values flowing through the reflection-based call:
integers, strings, and the two concrete structs of the repository test
service (Service1Request with fields A and B, Service1Response with
field Result). -/
inductive Value where
  | vint : Int → Value
  | vstr : String → Value
  | vS1Req : Int → Int → Value
  | vS1Res : Int → Value

/-- The response envelope (ServerResponse): version, an optional result
(omitted on error), an optional structured error (omitted on success),
and the echoed request id. -/
structure ServerResponse where
  version : String
  result : Option Value
  error : Option JError
  id : Option Json


/-- Argument and reply type descriptors (reflect.Type in Go), covering
the value universe above. -/
inductive Ty where
  | tint : Ty
  | tstr : Ty
  | tS1Req : Ty
  | tS1Res : Ty

/-- The zero value produced by reflect.New for each type. -/
def zeroOf : Ty → Value
  | .tint => .vint 0
  | .tstr => .vstr ""
  | .tS1Req => .vS1Req 0 0
  | .tS1Res => .vS1Res 0

/-- Field-wise unmarshalling of a JSON object into Service1Request
(fields A and B of type int), mirroring encoding/json: unknown keys
ignored, null is a no-op, the first type error is reported. -/
def applyS1ReqFields (a b : Int) (err : Option String) :
    List (String × Json) → (Int × Int) × Option String
  | [] => ((a, b), err)
  | (k, v) :: rest =>
    if k = "A" then
      match v with
      | .num n => applyS1ReqFields n b err rest
      | .null => applyS1ReqFields a b err rest
      | _ => applyS1ReqFields a b (err <|> some "cannot unmarshal value into int field A") rest
    else if k = "B" then
      match v with
      | .num n => applyS1ReqFields a n err rest
      | .null => applyS1ReqFields a b err rest
      | _ => applyS1ReqFields a b (err <|> some "cannot unmarshal value into int field B") rest
    else applyS1ReqFields a b err rest

/-- Field-wise unmarshalling of a JSON object into Service1Response
(field Result of type int). -/
def applyS1ResFields (r : Int) (err : Option String) :
    List (String × Json) → Int × Option String
  | [] => (r, err)
  | (k, v) :: rest =>
    if k = "Result" then
      match v with
      | .num n => applyS1ResFields n err rest
      | .null => applyS1ResFields r err rest
      | _ => applyS1ResFields r (err <|> some "cannot unmarshal value into int field Result") rest
    else applyS1ResFields r err rest

/-- json.Unmarshal of a raw params value into a typed argument buffer
(the reflect.New buffer allocated by the pipeline). -/
def unmarshalTy (ty : Ty) (v : Json) : Except String Value :=
  match ty, v with
  | _, .null => .ok (zeroOf ty)
  | .tint, .num n => .ok (.vint n)
  | .tint, _ => .error "cannot unmarshal value into int"
  | .tstr, .str s => .ok (.vstr s)
  | .tstr, _ => .error "cannot unmarshal value into string"
  | .tS1Req, .obj fields =>
    (match applyS1ReqFields 0 0 none fields with
     | ((a, b), none) => .ok (.vS1Req a b)
     | (_, some m) => .error m)
  | .tS1Req, _ => .error "cannot unmarshal value into Service1Request"
  | .tS1Res, .obj fields =>
    (match applyS1ResFields 0 none fields with
     | (r, none) => .ok (.vS1Res r)
     | (_, some m) => .error m)
  | .tS1Res, _ => .error "cannot unmarshal value into Service1Response"

/-- ReadRequest: with no prior error and absent params the zero-valued
argument buffer is kept (an optional member); present params are
unmarshalled into the buffer, a failure becoming an Invalid Request
error carrying the raw params as error data. -/
def json2ReadRequest (c : CodecReq) (argsTy : Ty) : Except JError Value :=
  match c.err with
  | some e => .error e
  | none =>
    match c.req.params with
    | none => .ok (zeroOf argsTy)
    | some p =>
      match unmarshalTy argsTy p with
      | .ok v => .ok v
      | .error m => .error ⟨.E_INVALID_REQ, m, .paramsData p⟩

-- ---------------------------------------------------------------------------
-- The HTTP response writer, modelled after the repository's
-- MockResponseWriter (test file): Write stores the body and defaults the
-- status to 200 when it is still unset, WriteHeader stores the status.
-- ---------------------------------------------------------------------------

/-- A response body: either plain text (written by the pipeline-level
WriteError) or a JSON-RPC envelope (written by the codec). -/
inductive Body where
  | text : String → Body
  | json : ServerResponse → Body

/-- The observable response state.  Header names are stored lower-cased
(Go canonicalises MIME header names, making Set case-insensitive); a
status of 0 means no explicit write happened yet. -/
structure ResponseWriter where
  header : List (String × String)
  status : Nat
  body : Option Body

/-- The writer before any write. -/
def emptyWriter : ResponseWriter :=
  ⟨[], 0, none⟩

/-- Header().Set. -/
def headerSet (w : ResponseWriter) (k v : String) : ResponseWriter :=
  { w with header := insertA (lowerGo k) v w.header }

/-- Header lookup (case-insensitive, as in Go). -/
def headerGet (w : ResponseWriter) (k : String) : Option String :=
  lookupA (lowerGo k) w.header

/-- WriteHeader. -/
def writeHeader (w : ResponseWriter) (status : Nat) : ResponseWriter :=
  { w with status := status }

/-- Write: stores the body and defaults the status to 200 when no
status was written before (net/http behaviour, also the behaviour of
the repository's MockResponseWriter). -/
def bodyWrite (w : ResponseWriter) (b : Body) : ResponseWriter :=
  { w with body := some b, status := if w.status = 0 then 200 else w.status }

/-- WriteError from writer.go: set a plain-text content type, write the
status, print the message. -/
def rpcWriteError (w : ResponseWriter) (status : Nat) (msg : String) : ResponseWriter :=
  bodyWrite (writeHeader (headerSet w "Content-Type" "text/plain; charset=utf-8") status) (.text msg)

/-- writeServerResponse of the json2 codec: a nil request id marks a
notification and nothing at all is written; otherwise the JSON content
type is set and the envelope is encoded onto the writer.  (The
encode-failure fallback in the source is unreachable in this model and
is not represented.) -/
def writeServerResponse (c : CodecReq) (w : ResponseWriter) (res : ServerResponse) : ResponseWriter :=
  match c.req.id with
  | some _ => bodyWrite (headerSet w "Content-Type" "application/json; charset=utf-8") (.json res)
  | none => w

/-- WriteResponse of the json2 codec: a result envelope echoing the id. -/
def json2WriteResponse (c : CodecReq) (w : ResponseWriter) (reply : Value) : ResponseWriter :=
  writeServerResponse c w ⟨"2.0", some reply, none, c.req.id⟩

/-- WriteError of the json2 codec: wrap the error unless it already is
a structured *Error, build an error envelope echoing the id.  The
status argument is accepted and ignored, exactly as in the source. -/
def json2WriteError (c : CodecReq) (w : ResponseWriter) (_status : Nat) (e : GoError) : ResponseWriter :=
  writeServerResponse c w ⟨"2.0", none, some (wrapGoErr e), c.req.id⟩

-- ---------------------------------------------------------------------------
-- The service registry (map.go).
-- ---------------------------------------------------------------------------

/-- The registry: dispatch keys to method descriptors, plus the alias
map.  The descriptor type is a parameter, since the registry logic
only inspects keys.  (The mutex of the source is dropped: one request
is modelled at a time.) -/
structure ServiceMap (α : Type) where
  methods : List (String × α)
  aliases : List (String × String)

/-- The insertion loop at the end of register (map.go lines 124-134):
the scanned methods are added one by one; an already-defined key stops
the loop with an error, keeping everything inserted so far and never
overwriting the existing entry. -/
def registerLoop {α : Type} (new : List (String × α)) (m : List (String × α)) :
    List (String × α) × Option String :=
  match new with
  | [] => (m, none)
  | (k, v) :: rest =>
    match lookupA k m with
    | some _ => (m, some ("rpc: service method already defined: " ++ quoteGo k))
    | none => registerLoop rest (insertA k v m)

/-- registerMethod (map.go lines 137-194), after the reflection shape
checks (which always pass for the descriptors considered here): an
empty name and an already-defined key fail, otherwise the descriptor is
inserted under the given key. -/
def registerMethodM {α : Type} (m : ServiceMap α) (name : String) (d : α) :
    ServiceMap α × Option String :=
  if name = "" then (m, some "rpc: service method name must not be empty")
  else
    match lookupA name m.methods with
    | some _ => (m, some ("rpc: service method already defined: " ++ quoteGo name))
    | none => ({ m with methods := insertA name d m.methods }, none)

/-- registerAlias (map.go lines 197-208): the target must be an
existing method key and the alias must not already be an alias key. -/
def registerAliasM {α : Type} (m : ServiceMap α) (aliasKey target : String) :
    ServiceMap α × Option String :=
  match lookupA target m.methods with
  | none => (m, some ("rpc: service method " ++ target ++ " for alias not found"))
  | some _ =>
    match lookupA aliasKey m.aliases with
    | some _ => (m, some ("rpc: service method alias " ++ aliasKey ++ " already defined"))
    | none => ({ m with aliases := insertA aliasKey target m.aliases }, none)

/-- get (map.go lines 213-236): resolve the alias map first (one level
of indirection), then look the resulting key up among the methods; the
not-found error quotes the post-resolution key.  (The nil-service check
of the source is unreachable here, since descriptors always carry their
service.) -/
def smGet {α : Type} (m : ServiceMap α) (method : String) : Except String α :=
  let key := match lookupA method m.aliases with
    | some target => target
    | none => method
  match lookupA key m.methods with
  | some d => .ok d
  | none => .error ("rpc: can't find service method " ++ quoteGo key)

-- ---------------------------------------------------------------------------
-- The dispatch pipeline (server.go), specialised to the json2 codec.
-- ---------------------------------------------------------------------------

/-- The observable parts of an incoming http.Request: the HTTP method,
the Content-Type and Accept-Encoding headers (empty when absent, as
returned by Header.Get), and the body. -/
structure HttpRequest where
  method : String
  contentType : String
  acceptEncoding : String
  body : String

/-- RequestInfo as passed to the hooks. -/
structure RequestInfo where
  method : String
  request : HttpRequest

/-- A dispatch-table entry as used by the pipeline: the argument and
reply type descriptors and the callable itself.  The callable receives
the request and the decoded arguments and returns the contents it left
in the reply buffer together with its error result. -/
structure MethodSpec where
  argsTy : Ty
  replyTy : Ty
  func : HttpRequest → Value → Value × Option GoError

/-- The server state: registered codecs (all of them the json2 codec in
this model, so only the content-type keys matter), the registry, and
the three pre-invocation hook slots. -/
structure ServerState where
  codecs : List (String × Unit)
  services : ServiceMap MethodSpec
  intercept : Option (RequestInfo → Option HttpRequest)
  before : Option (HttpRequest → HttpRequest)
  validate : Option (RequestInfo → Value → Option GoError)

/-- RegisterCodec: the codec is stored under the lower-cased content
type (server.go lines 54-56). -/
def registerCodec {α : Type} (m : List (String × α)) (codec : α) (contentType : String) :
    List (String × α) :=
  insertA (lowerGo contentType) codec m

/-- A codec map built by a sequence of RegisterCodec calls. -/
def codecsOf {α : Type} (regs : List (String × α)) : List (String × α) :=
  regs.foldl (fun m kc => registerCodec m kc.2 kc.1) []

/-- Codec selection (server.go lines 155-170): strip the parameter
suffix from the Content-Type; an empty value with exactly one
registered codec defaults to it; otherwise the lower-cased value must
be a key of the codec map, and a miss yields 415 with the exact
"unrecognized Content-Type" body. -/
def findCodec {α : Type} (codecs : List (String × α)) (ctHeader : String) :
    Except (Nat × String) α :=
  let ct := stripSemi ctHeader
  if ct = "" ∧ codecs.length = 1 then
    match codecs with
    | (_, c) :: _ => .ok c
    | [] => .error (415, "rpc: unrecognized Content-Type: " ++ ct)
  else
    match lookupA (lowerGo ct) codecs with
    | some c => .ok c
    | none => .error (415, "rpc: unrecognized Content-Type: " ++ ct)

/-- The request object seen by the validate hook and the method: the
intercept hook may replace it wholesale (a nil result keeps the
original), then the before hook may mutate it through the shared
pointer. -/
def hookedRequest (s : ServerState) (r : HttpRequest) (mname : String) : HttpRequest :=
  let r1 := match s.intercept with
    | some f =>
      match f ⟨mname, r⟩ with
      | some req => req
      | none => r
    | none => r
  match s.before with
  | some f => f r1
  | none => r1

/-- The error result of the validate hook, when one is registered
(server.go lines 216-219). -/
def validateResult (s : ServerState) (r : HttpRequest) (mname : String) (args : Value) :
    Option GoError :=
  match s.validate with
  | some f => f ⟨mname, hookedRequest s r mname⟩ args
  | none => none

/-- The outcome of one ServeHTTP call: the final writer, whether the
target method was invoked, the (status, error) pair passed to the codec
WriteError when the codec error path was taken, and the final contents
of the reply buffer once it was allocated. -/
structure ServeResult where
  writer : ResponseWriter
  invoked : Bool
  errorCall : Option (Nat × GoError)
  replyBuf : Option Value

/-- The tail of ServeHTTP after a successful argument decode
(server.go lines 191-259): hooks, validation, invocation, error
classification (400 on any error), the unconditional nosniff header,
and the encode through the codec. -/
def invokePhase (s : ServerState) (r : HttpRequest) (c : CodecReq) (mname : String)
    (mspec : MethodSpec) (args : Value) : ServeResult :=
  let w := headerSet emptyWriter "x-content-type-options" "nosniff"
  match validateResult s r mname args with
  | some e =>
    ⟨json2WriteError c w 400 e, false, some (400, e), some (zeroOf mspec.replyTy)⟩
  | none =>
    match mspec.func (hookedRequest s r mname) args with
    | (reply, none) => ⟨json2WriteResponse c w reply, true, none, some reply⟩
    | (reply, some e) => ⟨json2WriteError c w 400 e, true, some (400, e), some reply⟩

/-- ServeHTTP (server.go lines 150-260), with every registered codec
being the json2 codec: reject non-POST with 405; select the codec from
the Content-Type; extract the method name; resolve it in the registry;
decode the arguments; then run the invocation phase.  Each failure
before the invocation phase returns immediately through the respective
error writer. -/
def serveHTTP (s : ServerState) (r : HttpRequest) : ServeResult :=
  if r.method ≠ "POST" then
    ⟨rpcWriteError emptyWriter 405 ("rpc: POST method required, received " ++ r.method),
      false, none, none⟩
  else
    match findCodec s.codecs r.contentType with
    | .error (status, msg) => ⟨rpcWriteError emptyWriter status msg, false, none, none⟩
    | .ok _ =>
      let c := json2NewRequest r.body
      match json2Method c with
      | .error e =>
        ⟨json2WriteError c emptyWriter 400 (.jsonErr e), false, some (400, .jsonErr e), none⟩
      | .ok mname =>
        match smGet s.services mname with
        | .error msg =>
          ⟨json2WriteError c emptyWriter 400 (.plain msg), false, some (400, .plain msg), none⟩
        | .ok mspec =>
          match json2ReadRequest c mspec.argsTy with
          | .error e =>
            ⟨json2WriteError c emptyWriter 400 (.jsonErr e), false, some (400, .jsonErr e), none⟩
          | .ok args => invokePhase s r c mname mspec args

/-- Whether a request makes it past the argument decode, i.e. reaches
the encoding step of ServeHTTP that sets the nosniff header. -/
def reachesEncoding (s : ServerState) (r : HttpRequest) : Bool :=
  if r.method ≠ "POST" then false
  else
    match findCodec s.codecs r.contentType with
    | .error _ => false
    | .ok _ =>
      let c := json2NewRequest r.body
      match json2Method c with
      | .error _ => false
      | .ok mname =>
        match smGet s.services mname with
        | .error _ => false
        | .ok mspec => ! exceptIsErr (json2ReadRequest c mspec.argsTy)

-- ---------------------------------------------------------------------------
-- The compression selector (compression_selector.go).
-- ---------------------------------------------------------------------------

/-- The three encoders a codec can be handed: the identity
pass-through DefaultEncoder, the gzip encoder, and the flate (deflate)
encoder. -/
inductive EncoderKind where
  | defaultEncoder : EncoderKind
  | gzipEncoder : EncoderKind
  | flateEncoder : EncoderKind
deriving DecidableEq

/-- unicode.IsSpace restricted to the code points relevant for header
values, plus the comma, i.e. the separator predicate handed to
strings.FieldsFunc by acceptedEnc. -/
def isEncSep (c : Char) : Bool :=
  c = ' ' ∨ c = '\t' ∨ c = '\n' ∨ c = '\r' ∨ c = Char.ofNat 11 ∨ c = Char.ofNat 12 ∨
  c = Char.ofNat 133 ∨ c = Char.ofNat 160 ∨ c = ','

/-- strings.FieldsFunc: split at separators, dropping empty fields. -/
def goFieldsFunc (s : String) (p : Char → Bool) : List String :=
  ((s.toList.splitOnP p).filter (fun f => ¬ f.isEmpty)).map String.mk

/-- acceptedEnc (compression_selector.go lines 44-58): the first token
of the Accept-Encoding header equal to "gzip" or "deflate", else the
empty string. -/
def acceptedEnc (encHeader : String) : String :=
  if encHeader = "" then ""
  else
    match (goFieldsFunc encHeader isEncSep).find? (fun t => t == "gzip" || t == "deflate") with
    | some t => t
    | none => ""

/-- CompressionSelector.Select (compression_selector.go lines 61-69):
switch on acceptedEnc with cases "gzip" and "flate", defaulting to
DefaultEncoder. -/
def selectEncoder (r : HttpRequest) : EncoderKind :=
  let e := acceptedEnc r.acceptEncoding
  if e = "gzip" then .gzipEncoder
  else if e = "flate" then .flateEncoder
  else .defaultEncoder

-- ---------------------------------------------------------------------------
-- Concrete instances: Service1 with its Multiply method, as registered
-- through register (map.go) with the inferred service name.
-- ---------------------------------------------------------------------------

/-- Service1.Multiply from the repository test file: the reply Result
field is set to A * B and the method returns nil. -/
def multiplySpec : MethodSpec :=
  ⟨.tS1Req, .tS1Res,
    fun _ args =>
      match args with
      | .vS1Req a b => (.vS1Res (a * b), none)
      | _ => (.vS1Res 0, none)⟩

/-- The dispatch key register builds for Service1.Multiply
(map.go lines 106-110): serviceName ++ "/" ++ toLowerCase(methodName). -/
def multiplyKey : String :=
  "Service1" ++ "/" ++
    (match goToLowerCase "Multiply" with
     | .ok s => s
     | .error _ => "")

/-- The method set the register scan extracts from Service1. -/
def service1Methods : List (String × MethodSpec) :=
  [(multiplyKey, multiplySpec)]

/-- The registry after RegisterService(new(Service1), ""). -/
def service1Registry : ServiceMap MethodSpec :=
  ⟨(registerLoop service1Methods []).1, []⟩

/-- A server with Service1 registered under its inferred name and the
json2 codec registered for application/json, and no hooks. -/
def service1Server : ServerState :=
  ⟨[("application/json", ())], service1Registry, none, none, none⟩

/-- A server with nothing registered. -/
def emptyServer : ServerState :=
  ⟨[], ⟨[], []⟩, none, none, none⟩

/-- The JSON-RPC 2.0 round-trip request body of the spec. -/
def c1Body : String :=
  "\x7b\"jsonrpc\":\"2.0\",\"method\":\"Service1.Multiply\",\"params\":\x7b\"A\":4,\"B\":2\x7d,\"id\":1\x7d"

/-- The same body with the method name register actually stored. -/
def c1SlashBody : String :=
  "\x7b\"jsonrpc\":\"2.0\",\"method\":\"Service1/multiply\",\"params\":\x7b\"A\":4,\"B\":2\x7d,\"id\":1\x7d"

/-- The round-trip POST request. -/
def c1Request : HttpRequest :=
  ⟨"POST", "application/json", "", c1Body⟩

/-- The round-trip POST request with the slash-and-lower-case key. -/
def c1SlashRequest : HttpRequest :=
  ⟨"POST", "application/json", "", c1SlashBody⟩

/-- Whether the final writer carries X-Content-Type-Options: nosniff. -/
def nosniffSet (w : ResponseWriter) : Bool :=
  match headerGet w "X-Content-Type-Options" with
  | some v => v == "nosniff"
  | none => false

-- ---------------------------------------------------------------------------
-- Further concrete fixtures used by witnesses and counterexamples.
-- ---------------------------------------------------------------------------

/-- A method that leaves the zero reply and returns a plain error. -/
def failSpec : MethodSpec :=
  ⟨.tS1Req, .tS1Res, fun _ _ => (.vS1Res 0, some (.plain "boom"))⟩

/-- A server whose only method always fails. -/
def failServer : ServerState :=
  ⟨[("application/json", ())], ⟨[("Service1/multiply", failSpec)], []⟩, none, none, none⟩

/-- The Service1 server with a validate hook that rejects every request. -/
def validateServer : ServerState :=
  ⟨[("application/json", ())], service1Registry, none, none,
    some (fun _ _ => some (.plain "rejected"))⟩

/-- A notification body: same call as the round trip, but without id. -/
def c4Body : String :=
  "\x7b\"jsonrpc\":\"2.0\",\"method\":\"Service1/multiply\",\"params\":\x7b\"A\":4,\"B\":2\x7d\x7d"

/-- A notification POST request. -/
def c4Request : HttpRequest :=
  ⟨"POST", "application/json", "", c4Body⟩

/-- A body that is well-formed JSON but fails decoding with a type
error only after the jsonrpc member was already decoded as "2.0". -/
def c10Body : String :=
  "\x7b\"jsonrpc\":\"2.0\",\"method\":1\x7d"

/-- The empty registry over Nat descriptors. -/
def c6Map0 : ServiceMap Nat := ⟨[], []⟩

/-- After registerMethod under key "M" with descriptor 1. -/
def c6Map1 : ServiceMap Nat := (registerMethodM c6Map0 "M" 1).1

/-- After registerMethod under key "A" with descriptor 2. -/
def c6Map2 : ServiceMap Nat := (registerMethodM c6Map1 "A" 2).1

/-- After registerAlias("A", "M"): the method key "A" is now also an
alias key. -/
def c6Map3 : ServiceMap Nat := (registerAliasM c6Map2 "A" "M").1

/-- After registerAlias("B", "A"): an alias whose target is itself an
alias key. -/
def c6Map4 : ServiceMap Nat := (registerAliasM c6Map3 "B" "A").1

-- ---------------------------------------------------------------------------
-- Helper lemmas about the association-list model.
-- ---------------------------------------------------------------------------

theorem lookupA_insertA_self {α : Type} (k : String) (v : α) (m : List (String × α)) :
    lookupA k (insertA k v m) = some v := by
  induction m with
  | nil => simp [insertA, lookupA]
  | cons h t ih =>
    obtain ⟨k', v'⟩ := h
    by_cases hk : k' = k
    · simp [insertA, lookupA, hk]
    · simp [insertA, lookupA, hk, ih]

theorem lookupA_insertA_ne {α : Type} {k k' : String} (h : k' ≠ k) (v : α)
    (m : List (String × α)) : lookupA k (insertA k' v m) = lookupA k m := by
  induction m with
  | nil => simp [insertA, lookupA, h]
  | cons hd t ih =>
    obtain ⟨k'', v''⟩ := hd
    by_cases hk : k'' = k'
    · subst hk
      simp [insertA, lookupA, h]
    · simp [insertA, lookupA, hk, ih]

theorem lookupA_insertA_none_iff {α : Type} (k k' : String) (v : α)
    (m : List (String × α)) :
    lookupA k (insertA k' v m) = none ↔ k' ≠ k ∧ lookupA k m = none := by
  by_cases hk : k' = k
  · subst hk
    simp [lookupA_insertA_self]
  · simp [lookupA_insertA_ne hk, hk]

-- ---------------------------------------------------------------------------
-- Helper lemmas about the register insertion loop.
-- ---------------------------------------------------------------------------

theorem registerLoop_preserves {α : Type} (L : List (String × α)) (m : List (String × α))
    {k : String} {v : α} (h : lookupA k m = some v) :
    lookupA k (registerLoop L m).1 = some v := by
  induction L generalizing m with
  | nil => simpa [registerLoop]
  | cons hd t ih =>
    obtain ⟨k0, v0⟩ := hd
    cases h0 : lookupA k0 m with
    | some w => simpa [registerLoop, h0]
    | none =>
      have hne : k0 ≠ k := by
        intro he
        subst he
        rw [h0] at h
        exact Option.noConfusion h
      simp only [registerLoop, h0]
      exact ih _ (by rw [lookupA_insertA_ne hne, h])

theorem registerLoop_ok_lookup {α : Type} (L : List (String × α)) :
    ∀ m : List (String × α), (L.map Prod.fst).Nodup → (registerLoop L m).2 = none →
    ∀ {k : String} {v : α}, (k, v) ∈ L → lookupA k (registerLoop L m).1 = some v := by
  induction L with
  | nil =>
    intro m _ _ k v hmem
    cases hmem
  | cons hd t ih =>
    obtain ⟨k0, v0⟩ := hd
    intro m hnd hsucc k v hmem
    cases h0 : lookupA k0 m with
    | some w =>
      simp [registerLoop, h0] at hsucc
    | none =>
      have hstep : registerLoop ((k0, v0) :: t) m = registerLoop t (insertA k0 v0 m) := by
        simp [registerLoop, h0]
      rw [hstep] at hsucc ⊢
      have hnd' : (t.map Prod.fst).Nodup := by
        simp only [List.map_cons, List.nodup_cons] at hnd
        exact hnd.2
      rcases List.mem_cons.mp hmem with heq | hmemt
      · injection heq with hk hv
        subst hk
        subst hv
        exact registerLoop_preserves t _ (lookupA_insertA_self k v m)
      · exact ih _ hnd' hsucc hmemt

theorem registerLoop_collision {α : Type} (L : List (String × α)) (m : List (String × α))
    (hex : ∃ k, k ∈ L.map Prod.fst ∧ (lookupA k m).isSome) :
    ∃ k', (registerLoop L m).2 =
      some ("rpc: service method already defined: " ++ quoteGo k') := by
  induction L generalizing m with
  | nil =>
    obtain ⟨k, hk, _⟩ := hex
    cases hk
  | cons hd t ih =>
    obtain ⟨k0, v0⟩ := hd
    cases h0 : lookupA k0 m with
    | some w => exact ⟨k0, by simp [registerLoop, h0]⟩
    | none =>
      obtain ⟨k, hk, hsome⟩ := hex
      have hne : k ≠ k0 := by
        intro he
        subst he
        rw [h0] at hsome
        cases hsome
      have hkt : k ∈ t.map Prod.fst := by
        rcases List.mem_cons.mp hk with he | ht
        · exact absurd he hne
        · exact ht
      have hstep : registerLoop ((k0, v0) :: t) m = registerLoop t (insertA k0 v0 m) := by
        simp [registerLoop, h0]
      rw [hstep]
      exact ih _ ⟨k, hkt, by rwa [lookupA_insertA_ne (Ne.symm hne)]⟩

-- ---------------------------------------------------------------------------
-- Helper lemmas about codec registration and selection.
-- ---------------------------------------------------------------------------

theorem takeWhile_idem {p : Char → Bool} (l : List Char) :
    (l.takeWhile p).takeWhile p = l.takeWhile p := by
  induction l with
  | nil => rfl
  | cons c t ih =>
    by_cases hc : p c
    · simp [List.takeWhile, hc, ih]
    · simp [List.takeWhile, hc]

theorem stripSemi_idem (s : String) : stripSemi (stripSemi s) = stripSemi s := by
  simp [stripSemi, takeWhile_idem]

theorem codecsFold_lookup_none_iff {α : Type} (regs : List (String × α))
    (m : List (String × α)) (key : String) :
    lookupA key (regs.foldl (fun acc kc => registerCodec acc kc.2 kc.1) m) = none ↔
      lookupA key m = none ∧ ∀ kc ∈ regs, lowerGo kc.1 ≠ key := by
  induction regs generalizing m with
  | nil => simp
  | cons hd t ih =>
    rw [List.foldl_cons, ih]
    unfold registerCodec
    rw [lookupA_insertA_none_iff]
    constructor
    · rintro ⟨⟨hne, hm⟩, hall⟩
      refine ⟨hm, ?_⟩
      intro kc hkc
      rcases List.mem_cons.mp hkc with he | ht
      · subst he
        exact hne
      · exact hall kc ht
    · rintro ⟨hm, hall⟩
      exact ⟨⟨hall hd (List.mem_cons_self _ _), hm⟩,
        fun kc hkc => hall kc (List.mem_cons_of_mem _ hkc)⟩

theorem codecsFold_lookup_some_mem {α : Type} (regs : List (String × α))
    (m : List (String × α)) (key : String) (c : α)
    (h : lookupA key (regs.foldl (fun acc kc => registerCodec acc kc.2 kc.1) m) = some c) :
    (∃ k, (k, c) ∈ regs ∧ lowerGo k = key) ∨ lookupA key m = some c := by
  induction regs generalizing m with
  | nil => exact Or.inr (by simpa using h)
  | cons hd t ih =>
    obtain ⟨k0, c0⟩ := hd
    rw [List.foldl_cons] at h
    rcases ih _ h with ⟨k, hk, hlow⟩ | hm
    · exact Or.inl ⟨k, List.mem_cons_of_mem _ hk, hlow⟩
    · by_cases hkey : lowerGo k0 = key
      · rw [registerCodec, hkey, lookupA_insertA_self] at hm
        injection hm with hc
        subst hc
        exact Or.inl ⟨k0, List.mem_cons_self _ _, hkey⟩
      · rw [registerCodec, lookupA_insertA_ne hkey] at hm
        exact Or.inr hm

-- ---------------------------------------------------------------------------
-- Helper lemmas about the nosniff header.
-- ---------------------------------------------------------------------------

theorem nosniffSet_bodyWrite (w : ResponseWriter) (b : Body) :
    nosniffSet (bodyWrite w b) = nosniffSet w := rfl

theorem nosniffSet_writeHeader (w : ResponseWriter) (st : Nat) :
    nosniffSet (writeHeader w st) = nosniffSet w := rfl

theorem nosniffSet_headerSet_ct (w : ResponseWriter) (v : String) :
    nosniffSet (headerSet w "Content-Type" v) = nosniffSet w := by
  have hne : lowerGo "Content-Type" ≠ lowerGo "X-Content-Type-Options" := by decide
  simp [nosniffSet, headerGet, headerSet, lookupA_insertA_ne hne]

theorem nosniffSet_rpcWriteError (w : ResponseWriter) (st : Nat) (msg : String) :
    nosniffSet (rpcWriteError w st msg) = nosniffSet w := by
  rw [rpcWriteError, nosniffSet_bodyWrite, nosniffSet_writeHeader, nosniffSet_headerSet_ct]

theorem nosniffSet_writeServerResponse (c : CodecReq) (w : ResponseWriter)
    (res : ServerResponse) :
    nosniffSet (writeServerResponse c w res) = nosniffSet w := by
  rw [writeServerResponse]
  cases c.req.id with
  | some i => rw [nosniffSet_bodyWrite, nosniffSet_headerSet_ct]
  | none => rfl

theorem nosniffSet_json2WriteError (c : CodecReq) (w : ResponseWriter) (st : Nat)
    (e : GoError) : nosniffSet (json2WriteError c w st e) = nosniffSet w :=
  nosniffSet_writeServerResponse c w _

theorem nosniffSet_json2WriteResponse (c : CodecReq) (w : ResponseWriter) (reply : Value) :
    nosniffSet (json2WriteResponse c w reply) = nosniffSet w :=
  nosniffSet_writeServerResponse c w _

theorem nosniffSet_nosniffHeader :
    nosniffSet (headerSet emptyWriter "x-content-type-options" "nosniff") = true := by
  decide

-- ---------------------------------------------------------------------------
-- Claim theorems.
-- ---------------------------------------------------------------------------

/-- C5: for every registry state and every two service registrations
whose method sets resolve to a shared dispatch key, the second register
call returns a "service method already defined" error, and every
dispatch key inserted by the first registration still maps to the first
registration's method descriptor afterwards (no overwrite on
collision). -/
theorem C5_register_collision {α : Type} (m0 L1 L2 : List (String × α))
    (hnd : (L1.map Prod.fst).Nodup)
    (h1 : (registerLoop L1 m0).2 = none)
    (hshare : ∃ k, k ∈ L1.map Prod.fst ∧ k ∈ L2.map Prod.fst) :
    (∃ k', (registerLoop L2 (registerLoop L1 m0).1).2 =
        some ("rpc: service method already defined: " ++ quoteGo k')) ∧
    ∀ k v, (k, v) ∈ L1 → lookupA k (registerLoop L2 (registerLoop L1 m0).1).1 = some v := by
  obtain ⟨k, hk1, hk2⟩ := hshare
  obtain ⟨⟨k1, v⟩, hmem, hfst⟩ := List.mem_map.mp hk1
  simp only at hfst
  have hk2' : k1 ∈ L2.map Prod.fst := by
    rw [hfst]
    exact hk2
  have hlook : lookupA k1 (registerLoop L1 m0).1 = some v :=
    registerLoop_ok_lookup L1 m0 hnd h1 hmem
  constructor
  · exact registerLoop_collision L2 _ ⟨k1, hk2', by rw [hlook]; rfl⟩
  · intro k0 v0 hmem0
    exact registerLoop_preserves L2 _ (registerLoop_ok_lookup L1 m0 hnd h1 hmem0)

/-- C5 witness: registering Service1-style methods twice over the same
key collides, reports the key, and keeps the first descriptor. -/
theorem C5_register_collision_witness :
    (∃ k', (registerLoop [("Service1/multiply", (2 : Nat))]
        (registerLoop [("Service1/multiply", (1 : Nat))] []).1).2 =
        some ("rpc: service method already defined: " ++ quoteGo k')) ∧
    ∀ k v, (k, v) ∈ [("Service1/multiply", (1 : Nat))] →
      lookupA k (registerLoop [("Service1/multiply", (2 : Nat))]
        (registerLoop [("Service1/multiply", (1 : Nat))] []).1).1 = some v :=
  C5_register_collision [] [("Service1/multiply", 1)] [("Service1/multiply", 2)]
    (by decide) (by decide) ⟨"Service1/multiply", by decide, by decide⟩

/-- C6 counterexample: the claim that a successful registerAlias makes
get(alias) return exactly what get(target) returns fails when the
target is itself an alias key.  Here "A" is both a method key (with
descriptor 2) and an alias for "M" (descriptor 1); after the successful
registerAlias("B", "A"), get("B") resolves to the method stored under
"A" while get("A") resolves through the alias map to "M". -/
theorem C6_alias_counterexample :
    (registerMethodM c6Map0 "M" 1).2 = none ∧
    (registerMethodM c6Map1 "A" 2).2 = none ∧
    (registerAliasM c6Map2 "A" "M").2 = none ∧
    (registerAliasM c6Map3 "B" "A").2 = none ∧
    smGet c6Map4 "B" = .ok 2 ∧
    smGet c6Map4 "A" = .ok 1 ∧
    smGet c6Map4 "B" ≠ smGet c6Map4 "A" := by
  refine ⟨rfl, rfl, rfl, rfl, rfl, rfl, ?_⟩
  intro h
  rw [show smGet c6Map4 "B" = Except.ok 2 from rfl,
    show smGet c6Map4 "A" = Except.ok 1 from rfl] at h
  injection h with h'
  exact absurd h' (by decide)

/-- C6 amended: registerAlias fails whenever the target is not an
existing method key, and whenever the alias is already an alias key;
after a successful registerAlias(alias, target), get(alias) returns the
method descriptor stored under the target key, and this equals
get(target) whenever target is not itself an alias key. -/
theorem C6_alias_amended {α : Type} (m : ServiceMap α) (aliasKey target : String) :
    (lookupA target m.methods = none →
      (registerAliasM m aliasKey target).2 =
        some ("rpc: service method " ++ target ++ " for alias not found")) ∧
    (∀ d, lookupA target m.methods = some d → lookupA aliasKey m.aliases ≠ none →
      (registerAliasM m aliasKey target).2 =
        some ("rpc: service method alias " ++ aliasKey ++ " already defined")) ∧
    (∀ d, lookupA target m.methods = some d →
      (registerAliasM m aliasKey target).2 = none →
      smGet (registerAliasM m aliasKey target).1 aliasKey = .ok d ∧
      (lookupA target (registerAliasM m aliasKey target).1.aliases = none →
        smGet (registerAliasM m aliasKey target).1 aliasKey =
          smGet (registerAliasM m aliasKey target).1 target)) := by
  refine ⟨?_, ?_, ?_⟩
  · intro h
    simp [registerAliasM, h]
  · intro d hd hal
    cases ha : lookupA aliasKey m.aliases with
    | none => exact absurd ha hal
    | some t => simp [registerAliasM, hd, ha]
  · intro d hd hsucc
    cases ha : lookupA aliasKey m.aliases with
    | some t => simp [registerAliasM, hd, ha] at hsucc
    | none =>
      have hres : (registerAliasM m aliasKey target).1 =
          { m with aliases := insertA aliasKey target m.aliases } := by
        simp [registerAliasM, hd, ha]
      rw [hres]
      constructor
      · simp [smGet, lookupA_insertA_self, hd]
      · intro htgt
        simp [smGet, lookupA_insertA_self, htgt, hd]

/-- C6 witness: the amended statement applied to a one-method registry
with a fresh alias. -/
theorem C6_alias_amended_witness :
    smGet (registerAliasM (⟨[("M", 1)], []⟩ : ServiceMap Nat) "B" "M").1 "B" = .ok 1 ∧
    smGet (registerAliasM (⟨[("M", 1)], []⟩ : ServiceMap Nat) "B" "M").1 "B" =
      smGet (registerAliasM (⟨[("M", 1)], []⟩ : ServiceMap Nat) "B" "M").1 "M" := by
  have h := (C6_alias_amended (⟨[("M", 1)], []⟩ : ServiceMap Nat) "B" "M").2.2 1
    (by decide) (by decide)
  exact ⟨h.1, h.2 (by decide)⟩

/-- C8: for every POST request, codec selection strips the
";"-parameter suffix from the Content-Type; an empty remaining value
with exactly one registered codec defaults to that codec; otherwise the
value must match a registered content type case-insensitively, and on
no match the result is 415 with body "rpc: unrecognized
Content-Type: " followed by the stripped value. -/
theorem C8_codec_selection {α : Type} (regs : List (String × α)) (ctHeader : String) :
    (findCodec (codecsOf regs) ctHeader = findCodec (codecsOf regs) (stripSemi ctHeader)) ∧
    (∀ k c, stripSemi ctHeader = "" → codecsOf regs = [(k, c)] →
      findCodec (codecsOf regs) ctHeader = .ok c) ∧
    (¬ (stripSemi ctHeader = "" ∧ (codecsOf regs).length = 1) →
      (∃ kc, kc ∈ regs ∧ lowerGo kc.1 = lowerGo (stripSemi ctHeader)) →
      ∃ c, findCodec (codecsOf regs) ctHeader = .ok c ∧
        ∃ k, (k, c) ∈ regs ∧ lowerGo k = lowerGo (stripSemi ctHeader)) ∧
    (¬ (stripSemi ctHeader = "" ∧ (codecsOf regs).length = 1) →
      (∀ kc ∈ regs, lowerGo kc.1 ≠ lowerGo (stripSemi ctHeader)) →
      findCodec (codecsOf regs) ctHeader =
        .error (415, "rpc: unrecognized Content-Type: " ++ stripSemi ctHeader)) := by
  refine ⟨?_, ?_, ?_, ?_⟩
  · simp [findCodec, stripSemi_idem]
  · intro k c h0 h1
    simp [findCodec, h0, h1]
  · intro hnot hex
    cases hsome : lookupA (lowerGo (stripSemi ctHeader)) (codecsOf regs) with
    | none =>
      rw [codecsOf, codecsFold_lookup_none_iff] at hsome
      obtain ⟨kc, hkc, hlow⟩ := hex
      exact absurd hlow (hsome.2 kc hkc)
    | some c =>
      refine ⟨c, by simp [findCodec, hnot, hsome], ?_⟩
      have hmem := codecsFold_lookup_some_mem regs [] _ c (by rw [← codecsOf]; exact hsome)
      rcases hmem with ⟨k, hk, hlow⟩ | hnil
      · exact ⟨k, hk, hlow⟩
      · exact absurd hnil (by simp [lookupA])
  · intro hnot hall
    have hnone : lookupA (lowerGo (stripSemi ctHeader)) (codecsOf regs) = none := by
      rw [codecsOf, codecsFold_lookup_none_iff]
      exact ⟨rfl, hall⟩
    simp [findCodec, hnot, hnone]

/-- C8 witness: a case-insensitive, parameter-stripped match selects
the registered codec, and an unregistered content type yields the exact
415 error. -/
theorem C8_codec_selection_witness :
    (∃ c, findCodec (codecsOf [("Application/JSON", (7 : Nat))])
        "application/json; charset=utf-8" = .ok c ∧
      ∃ k, (k, c) ∈ [("Application/JSON", (7 : Nat))] ∧
        lowerGo k = lowerGo (stripSemi "application/json; charset=utf-8")) ∧
    findCodec (codecsOf [("application/json", (7 : Nat)), ("text/xml", (8 : Nat))]) "text/html" =
      .error (415, "rpc: unrecognized Content-Type: " ++ stripSemi "text/html") := by
  constructor
  · exact (C8_codec_selection [("Application/JSON", 7)] "application/json; charset=utf-8").2.2.1
      (by decide) ⟨("Application/JSON", 7), by decide, by decide⟩
  · exact (C8_codec_selection [("application/json", 7), ("text/xml", 8)] "text/html").2.2.2
      (by decide) (by decide)

/-- C9: the Accept-Encoding token "deflate" is returned by acceptedEnc,
but Select switches on the string "flate", which acceptedEnc can never
produce, so a deflate request gets the identity DefaultEncoder instead
of the flate encoder; gzip is selected correctly. -/
theorem C9_deflate_selects_identity :
    acceptedEnc "deflate" = "deflate" ∧
    selectEncoder ⟨"POST", "", "deflate", ""⟩ = .defaultEncoder ∧
    selectEncoder ⟨"POST", "", "gzip, deflate", ""⟩ = .gzipEncoder ∧
    ∀ s : String, acceptedEnc s ≠ "flate" := by
  refine ⟨rfl, rfl, rfl, ?_⟩
  intro s
  by_cases hs : s = ""
  · simp [acceptedEnc, hs]
  · simp only [acceptedEnc, if_neg hs]
    cases hf : (goFieldsFunc s isEncSep).find? (fun t => t == "gzip" || t == "deflate") with
    | none => decide
    | some t =>
      have hp := List.find?_some hf
      simp only [Bool.or_eq_true, beq_iff_eq] at hp
      rcases hp with rfl | rfl <;> decide

/-- C10 counterexample: the body is well-formed JSON whose method
member has the wrong type, so decoding fails, yet the jsonrpc member
was already decoded as "2.0"; the recorded Parse Error therefore
survives the unconditional version re-check, and Method() reports the
parse-error code, contradicting the claim that unparseable bodies never
surface it. -/
theorem C10_parse_error_survives :
    (decodeServerRequest c10Body).2.isSome = true ∧
    (decodeServerRequest c10Body).1.version = "2.0" ∧
    errCode (json2NewRequest c10Body).err = some .E_PARSE ∧
    exceptErrCode (json2Method (json2NewRequest c10Body)) = some .E_PARSE :=
  ⟨rfl, rfl, rfl, rfl⟩

/-- C10 amended: newCodecRequest records a Parse Error and then
unconditionally re-checks the version member, so the error is
overwritten with an Invalid Request error exactly when the partially
populated version is not "2.0" (in particular for every syntactically
invalid body, whose envelope stays zero-valued); a body failing only
after its jsonrpc member decoded as "2.0" keeps the parse-error
code. -/
theorem C10_invalid_request_amended (body : String)
    (hfail : ((decodeServerRequest body).2).isSome = true) :
    ((decodeServerRequest body).1.version ≠ "2.0" →
      errCode (json2NewRequest body).err = some .E_INVALID_REQ) ∧
    ((decodeServerRequest body).1.version = "2.0" →
      errCode (json2NewRequest body).err = some .E_PARSE) := by
  rcases hsr : decodeServerRequest body with ⟨req, decErr⟩
  rw [hsr] at hfail
  simp only at hfail
  constructor
  · intro hv
    simp only at hv
    simp [json2NewRequest, hsr, hv, errCode]
  · intro hv
    simp only at hv
    cases hde : decErr with
    | none =>
      rw [hde] at hfail
      simp at hfail
    | some m =>
      simp [json2NewRequest, hsr, hv, hde, errCode]

/-- C10 witness: a syntactically invalid body surfaces the
invalid-request code, a type-error body with version "2.0" keeps the
parse-error code. -/
theorem C10_invalid_request_amended_witness :
    errCode (json2NewRequest "\x7b").err = some .E_INVALID_REQ ∧
    errCode (json2NewRequest c10Body).err = some .E_PARSE :=
  ⟨(C10_invalid_request_amended "\x7b" rfl).1 (by decide),
   (C10_invalid_request_amended c10Body rfl).2 rfl⟩

theorem invokePhase_nosniff (s : ServerState) (r : HttpRequest) (c : CodecReq)
    (mname : String) (mspec : MethodSpec) (args : Value) :
    nosniffSet (invokePhase s r c mname mspec args).writer = true := by
  rw [invokePhase]
  cases validateResult s r mname args with
  | some e => simp [nosniffSet_json2WriteError, nosniffSet_nosniffHeader]
  | none =>
    rcases mspec.func (hookedRequest s r mname) args with ⟨reply, merr⟩
    cases merr with
    | none => simp [nosniffSet_json2WriteResponse, nosniffSet_nosniffHeader]
    | some e => simp [nosniffSet_json2WriteError, nosniffSet_nosniffHeader]

/-- C1: the end-to-end JSON-RPC round trip of the spec fails on the
code: register stores the dispatch key "Service1/multiply" (slash and
lower-cased first letter), so the registry lookup of the wire method
name "Service1.Multiply" fails and the response is an error envelope,
not the result envelope with Result 8; the same request addressed to
the key the code actually registered does produce the Result 8
envelope.  (The repository's own test expects
HasMethod("Service1.Multiply") to succeed, so this is a divergence of
map.go from its tests and doc comments.) -/
theorem C1_roundtrip_broken :
    multiplyKey = "Service1/multiply" ∧
    exceptIsErr (smGet service1Server.services "Service1.Multiply") = true ∧
    (serveHTTP service1Server c1Request).writer.body =
      some (.json ⟨"2.0", none,
        some ⟨.E_SERVER, "rpc: can't find service method " ++ quoteGo "Service1.Multiply",
          .noData⟩,
        some (.num 1)⟩) ∧
    (serveHTTP service1Server c1Request).invoked = false ∧
    (serveHTTP service1Server c1SlashRequest).writer.body =
      some (.json ⟨"2.0", some (.vS1Res 8), none, some (.num 1)⟩) ∧
    (serveHTTP service1Server c1SlashRequest).writer.status = 200 :=
  ⟨rfl, rfl, rfl, rfl, rfl, rfl⟩

/-- C2 counterexample: a GET request is answered through the plain
WriteError helper with status 405 and no X-Content-Type-Options header
at all, so not every ServeHTTP branch carries the nosniff header. -/
theorem C2_nosniff_counterexample :
    nosniffSet (serveHTTP emptyServer ⟨"GET", "", "", ""⟩).writer = false ∧
    (serveHTTP emptyServer ⟨"GET", "", "", ""⟩).writer.status = 405 ∧
    (serveHTTP emptyServer ⟨"GET", "", "", ""⟩).writer.body =
      some (.text "rpc: POST method required, received GET") :=
  ⟨rfl, rfl, rfl⟩

/-- C2 amended: the response of ServeHTTP carries
X-Content-Type-Options: nosniff exactly when the request makes it past
the argument decode into the encoding step (success, method error, or
validate-hook error, including notifications); the early-exit branches
(405 non-POST, 415 unknown content type, and the 400 method-extraction,
lookup and decode failures) never set the header. -/
theorem nosniffSet_emptyWriter : nosniffSet emptyWriter = false := rfl

theorem C2_nosniff_amended (s : ServerState) (r : HttpRequest) :
    nosniffSet (serveHTTP s r).writer = reachesEncoding s r := by
  rw [serveHTTP, reachesEncoding]
  by_cases hm : r.method ≠ "POST"
  · rw [if_pos hm, if_pos hm]
    simp [nosniffSet_rpcWriteError, nosniffSet_emptyWriter]
  · rw [if_neg hm, if_neg hm]
    cases hc : findCodec s.codecs r.contentType with
    | error p =>
      rcases p with ⟨st, msg⟩
      simp [hc, nosniffSet_rpcWriteError, nosniffSet_emptyWriter]
    | ok u =>
      cases hmeth : json2Method (json2NewRequest r.body) with
      | error e =>
        simp [hc, hmeth, nosniffSet_json2WriteError, nosniffSet_emptyWriter]
      | ok mname =>
        cases hget : smGet s.services mname with
        | error msg =>
          simp [hc, hmeth, hget, nosniffSet_json2WriteError, nosniffSet_emptyWriter]
        | ok mspec =>
          cases hread : json2ReadRequest (json2NewRequest r.body) mspec.argsTy with
          | error e =>
            simp [hc, hmeth, hget, hread, nosniffSet_json2WriteError,
              nosniffSet_emptyWriter, exceptIsErr]
          | ok args =>
            simp [hc, hmeth, hget, hread, invokePhase_nosniff, exceptIsErr]

theorem serveHTTP_reaches_invoke (s : ServerState) (r : HttpRequest) (mname : String)
    (mspec : MethodSpec) (args : Value)
    (hpost : r.method = "POST")
    (hcodec : findCodec s.codecs r.contentType = .ok ())
    (hm : json2Method (json2NewRequest r.body) = .ok mname)
    (hget : smGet s.services mname = .ok mspec)
    (hread : json2ReadRequest (json2NewRequest r.body) mspec.argsTy = .ok args) :
    serveHTTP s r = invokePhase s r (json2NewRequest r.body) mname mspec args := by
  have hpost' : ¬ (r.method ≠ "POST") := fun h => h hpost
  rw [serveHTTP, if_neg hpost']
  simp only [hcodec, hm, hget, hread]

/-- C3: for every non-notification JSON-RPC 2.0 request whose resolved
method returns a non-nil error, the codec writes an error envelope
(wrapping a plain error as the generic E_SERVER code with its message,
forwarding a structured error verbatim), echoes the request id, omits
the result member, and the transport status stays 200 even though the
pipeline passed 400 to WriteError. -/
theorem C3_json2_error_path (s : ServerState) (r : HttpRequest) (mname : String)
    (mspec : MethodSpec) (args rep : Value) (e : GoError) (i : Json)
    (hpost : r.method = "POST")
    (hcodec : findCodec s.codecs r.contentType = .ok ())
    (hm : json2Method (json2NewRequest r.body) = .ok mname)
    (hget : smGet s.services mname = .ok mspec)
    (hread : json2ReadRequest (json2NewRequest r.body) mspec.argsTy = .ok args)
    (hid : (json2NewRequest r.body).req.id = some i)
    (hval : validateResult s r mname args = none)
    (hfunc : mspec.func (hookedRequest s r mname) args = (rep, some e)) :
    (serveHTTP s r).writer.body =
      some (.json ⟨"2.0", none, some (wrapGoErr e), some i⟩) ∧
    (serveHTTP s r).writer.status = 200 ∧
    (serveHTTP s r).errorCall = some (400, e) := by
  rw [serveHTTP_reaches_invoke s r mname mspec args hpost hcodec hm hget hread]
  rw [invokePhase]
  simp only [hval, hfunc]
  refine ⟨?_, ?_, trivial⟩
  · simp [json2WriteError, writeServerResponse, hid, bodyWrite]
  · simp [json2WriteError, writeServerResponse, hid, bodyWrite, headerSet, emptyWriter]

/-- C3 witness: a server whose method fails with the plain error
"boom" answers the identified request with the wrapped E_SERVER
envelope, transport status 200 and a 400 passed to WriteError. -/
theorem C3_json2_error_path_witness :
    (serveHTTP failServer c1SlashRequest).writer.body =
      some (.json ⟨"2.0", none, some (wrapGoErr (.plain "boom")), some (.num 1)⟩) ∧
    (serveHTTP failServer c1SlashRequest).writer.status = 200 ∧
    (serveHTTP failServer c1SlashRequest).errorCall = some (400, .plain "boom") :=
  C3_json2_error_path failServer c1SlashRequest "Service1/multiply" failSpec
    (.vS1Req 4 2) (.vS1Res 0) (.plain "boom") (.num 1) rfl rfl rfl rfl rfl rfl rfl rfl

/-- C4: a request whose id member is absent or JSON null is a
notification: the pipeline still resolves the method and, when the
validate hook does not object, invokes it, but no response body is ever
written, whatever the outcome of the hook or of the method. -/
theorem C4_notification (s : ServerState) (r : HttpRequest) (mname : String)
    (mspec : MethodSpec) (args : Value)
    (hpost : r.method = "POST")
    (hcodec : findCodec s.codecs r.contentType = .ok ())
    (hm : json2Method (json2NewRequest r.body) = .ok mname)
    (hget : smGet s.services mname = .ok mspec)
    (hread : json2ReadRequest (json2NewRequest r.body) mspec.argsTy = .ok args)
    (hid : (json2NewRequest r.body).req.id = none) :
    (serveHTTP s r).writer.body = none ∧
    (validateResult s r mname args = none → (serveHTTP s r).invoked = true) := by
  rw [serveHTTP_reaches_invoke s r mname mspec args hpost hcodec hm hget hread]
  rw [invokePhase]
  constructor
  · cases hval : validateResult s r mname args with
    | some e =>
      simp [json2WriteError, writeServerResponse, hid, headerSet, emptyWriter]
    | none =>
      rcases hfn : mspec.func (hookedRequest s r mname) args with ⟨reply, merr⟩
      cases merr with
      | none =>
        simp [hfn, json2WriteResponse, writeServerResponse, hid, headerSet, emptyWriter]
      | some e =>
        simp [hfn, json2WriteError, writeServerResponse, hid, headerSet, emptyWriter]
  · intro hval
    simp only [hval]
    rcases hfn : mspec.func (hookedRequest s r mname) args with ⟨reply, merr⟩
    cases merr with
    | none => simp [hfn]
    | some e => simp [hfn]

/-- C4 witness: the notification variant of the round-trip request is
answered with no body although the method was invoked. -/
theorem C4_notification_witness :
    (serveHTTP service1Server c4Request).writer.body = none ∧
    (serveHTTP service1Server c4Request).invoked = true :=
  have h := C4_notification service1Server c4Request "Service1/multiply" multiplySpec
    (.vS1Req 4 2) rfl rfl rfl rfl rfl rfl
  ⟨h.1, h.2 rfl⟩

/-- C7: whenever the registered validate hook returns a non-nil error,
the target method is never invoked, the reply buffer keeps its zero
value, and exactly that error is handed to the codec error path with
status 400. -/
theorem C7_validate_blocks (s : ServerState) (r : HttpRequest) (mname : String)
    (mspec : MethodSpec) (args : Value) (e : GoError)
    (hpost : r.method = "POST")
    (hcodec : findCodec s.codecs r.contentType = .ok ())
    (hm : json2Method (json2NewRequest r.body) = .ok mname)
    (hget : smGet s.services mname = .ok mspec)
    (hread : json2ReadRequest (json2NewRequest r.body) mspec.argsTy = .ok args)
    (hval : validateResult s r mname args = some e) :
    (serveHTTP s r).invoked = false ∧
    (serveHTTP s r).replyBuf = some (zeroOf mspec.replyTy) ∧
    (serveHTTP s r).errorCall = some (400, e) ∧
    (serveHTTP s r).writer = json2WriteError (json2NewRequest r.body)
      (headerSet emptyWriter "x-content-type-options" "nosniff") 400 e := by
  rw [serveHTTP_reaches_invoke s r mname mspec args hpost hcodec hm hget hread]
  rw [invokePhase]
  simp only [hval]
  exact ⟨trivial, trivial, trivial, trivial⟩

/-- C7 witness: the always-rejecting validate hook blocks
Service1.Multiply and its error reaches the codec error path with
status 400. -/
theorem C7_validate_blocks_witness :
    (serveHTTP validateServer c1SlashRequest).invoked = false ∧
    (serveHTTP validateServer c1SlashRequest).replyBuf = some (zeroOf multiplySpec.replyTy) ∧
    (serveHTTP validateServer c1SlashRequest).errorCall = some (400, .plain "rejected") ∧
    (serveHTTP validateServer c1SlashRequest).writer =
      json2WriteError (json2NewRequest c1SlashRequest.body)
        (headerSet emptyWriter "x-content-type-options" "nosniff") 400 (.plain "rejected") :=
  C7_validate_blocks validateServer c1SlashRequest "Service1/multiply" multiplySpec
    (.vS1Req 4 2) (.plain "rejected") rfl rfl rfl rfl rfl rfl
